import Mathlib

/-!
Verification of the scroll/terminal coordination core of the rileym.xyz
front-end. JavaScript source is shallowly embedded: pure functions become
Lean functions, closure/instance state becomes explicit state records, and
timer/animation-frame scheduling becomes explicit event traces over `Nat`
timestamps. DOM objects are identified by `Nat` ids; style objects are
association lists where the value of a property is the last assignment to
it (JavaScript object-spread semantics).
-/

/-! ## String primitives

The JavaScript string built-ins used by the source (`trim`, `split(' ')`,
`join(' ')`, `toLowerCase`, `startsWith`) are modelled by structural
recursion over character lists so that every definition evaluates inside
the kernel. -/

/-- `String.prototype.trim`: drop whitespace from both ends. -/
def jsTrim (s : String) : String :=
  String.mk (((s.toList.dropWhile Char.isWhitespace).reverse.dropWhile Char.isWhitespace).reverse)

/-- Helper for `splitSp`: split a character list at every space, keeping
empty fields, accumulating the current field in reverse. -/
def splitSpAux : List Char → List Char → List String
  | [], acc => [String.mk acc.reverse]
  | c :: rest, acc =>
    if c = ' ' then String.mk acc.reverse :: splitSpAux rest []
    else splitSpAux rest (c :: acc)

/-- `String.prototype.split(' ')`: split on each single space character;
consecutive spaces yield empty fields, and the empty string yields `[""]`. -/
def splitSp (s : String) : List String := splitSpAux s.toList []

/-- `Array.prototype.join(' ')`. -/
def joinSp : List String → String
  | [] => ""
  | [a] => a
  | a :: rest => a ++ " " ++ joinSp rest

/-- `String.prototype.toLowerCase` (the source only exercises ASCII). -/
def toLowerCase (s : String) : String := String.mk (s.toList.map Char.toLower)

/-- Boolean prefix test on character lists. -/
def listIsPrefixOf : List Char → List Char → Bool
  | [], _ => true
  | _ :: _, [] => false
  | a :: as, b :: bs => a == b && listIsPrefixOf as bs

/-- `String.prototype.startsWith`. -/
def jsStartsWith (s pre : String) : Bool := listIsPrefixOf pre.toList s.toList

/-! ## Rate limiters (`assets/js` utility module)

`throttle(func, limit)` keeps a private `inThrottle` flag that a
`setTimeout(..., limit)` resets.  We model the flag together with its
reset timer as the absolute time at which the flag falls back to `false`:
a call at time `t` sees `inThrottle === true` exactly when a previous
call fired at some `t0` with `t < t0 + limit`. -/

/-- Closure state of a `throttle` wrapper: `expiry` is the time at which
the pending `setTimeout(() => inThrottle = false, limit)` fires, if a
throttle window is open. -/
structure ThrottleState where
  expiry : Option Nat
deriving DecidableEq, Repr

/-- One call to the throttled wrapper at absolute time `t`: returns
whether `func` was invoked, and the new closure state. -/
def throttleStep (limit : Nat) (st : ThrottleState) (t : Nat) : Bool × ThrottleState :=
  let inThrottle : Bool :=
    match st.expiry with
    | none => false
    | some e => decide (t < e)
  if inThrottle then (false, st) else (true, ⟨some (t + limit)⟩)

/-- Run a throttled wrapper over a trace of call times, collecting the
times at which `func` actually fired. -/
def throttleRunAux (limit : Nat) (st : ThrottleState) : List Nat → List Nat
  | [] => []
  | t :: rest =>
    match throttleStep limit st t with
    | (true, st') => t :: throttleRunAux limit st' rest
    | (false, st') => throttleRunAux limit st' rest

/-- Calls to a fresh throttled wrapper at the given times; result is the
subsequence of times at which `func` fired. -/
def throttleRun (limit : Nat) (ts : List Nat) : List Nat :=
  throttleRunAux limit ⟨none⟩ ts

lemma throttleRunAux_none_cons (limit t : Nat) (ts : List Nat) :
    throttleRunAux limit ⟨none⟩ (t :: ts) =
      t :: throttleRunAux limit ⟨some (t + limit)⟩ ts := by
  simp [throttleRunAux, throttleStep]

lemma throttleRunAux_dropped (limit e t : Nat) (ts : List Nat) (h : t < e) :
    throttleRunAux limit ⟨some e⟩ (t :: ts) = throttleRunAux limit ⟨some e⟩ ts := by
  simp [throttleRunAux, throttleStep, h]

lemma throttleRunAux_refire (limit e t : Nat) (ts : List Nat) (h : ¬ t < e) :
    throttleRunAux limit ⟨some e⟩ (t :: ts) =
      t :: throttleRunAux limit ⟨some (t + limit)⟩ ts := by
  simp [throttleRunAux, throttleStep, h]

lemma throttleRunAux_drop (limit e : Nat) (mids rest : List Nat)
    (h : ∀ u ∈ mids, u < e) :
    throttleRunAux limit ⟨some e⟩ (mids ++ rest) = throttleRunAux limit ⟨some e⟩ rest := by
  induction mids with
  | nil => rfl
  | cons u mids ih =>
    rw [List.cons_append, throttleRunAux_dropped limit e u _ (h u (by simp))]
    exact ih (fun v hv => h v (by simp [hv]))

/-- C4: the throttle wrapper is leading-edge — the first call fires
immediately; every call inside the open `limit` window is dropped (not
queued); and once the window has elapsed the next call fires immediately
again.  Specialising the second conjunct to `limit = 150`,
`t0 = 0`, `mids = [10, ..., 100]` gives the spec's trace: only the call
at t=0 executes before t=150. -/
theorem throttle_leading_edge (limit t0 t2 : Nat) (mids : List Nat)
    (hm : ∀ u ∈ mids, u < t0 + limit) (h2 : t0 + limit ≤ t2) :
    throttleRun limit (t0 :: (mids ++ [t2])) = [t0, t2]
    ∧ throttleRun limit (t0 :: mids) = [t0] := by
  constructor
  · show throttleRunAux limit ⟨none⟩ (t0 :: (mids ++ [t2])) = [t0, t2]
    rw [throttleRunAux_none_cons, throttleRunAux_drop limit (t0 + limit) mids [t2] hm,
      throttleRunAux_refire limit (t0 + limit) t2 [] (by omega)]
    rfl
  · show throttleRunAux limit ⟨none⟩ (t0 :: mids) = [t0]
    have h := throttleRunAux_drop limit (t0 + limit) mids [] hm
    rw [throttleRunAux_none_cons]
    simp only [List.append_nil] at h
    rw [h]
    rfl

/-- Witness for C4 at the spec's concrete trace: calls every 10ms up to
t=100 with a 150ms interval fire only at t=0; and after the window has
elapsed a call at t=150 fires again. -/
theorem throttle_leading_edge_witness :
    throttleRun 150 [0, 10, 20, 30, 40, 50, 60, 70, 80, 90, 100] = [0]
    ∧ throttleRun 150 [0, 10, 150] = [0, 150] := by
  refine ⟨?_, ?_⟩
  · exact (throttle_leading_edge 150 0 999 [10, 20, 30, 40, 50, 60, 70, 80, 90, 100]
      (by decide) (by decide)).2
  · exact (throttle_leading_edge 150 0 150 [10] (by decide) (by decide)).1

/-! ## Debounce

`debounce(func, wait)` keeps a private `timeout`; each call clears it and
schedules `later` (which invokes `func` with that call's arguments) after
`wait` ms.  We model the pending timer as `some (fireTime, args)` and run
the wrapper over a trace of timestamped calls, collecting the
`(fireTime, args)` pairs at which `func` actually ran (including the
final timer left pending at the end of the trace). -/

/-- Run a debounced wrapper over timestamped calls from the given pending
timer; a pending timer fires when its due time has passed before the next
call arrives, and each call replaces the timer with `(t + wait, args)`. -/
def debounceRun (wait : Nat) : List (Nat × α) → Option (Nat × α) → List (Nat × α)
  | [], pending => pending.toList
  | (t, a) :: rest, pending =>
    (match pending with
     | some p => if p.1 ≤ t then [p] else []
     | none => []) ++ debounceRun wait rest (some (t + wait, a))

/-- A call trace is a single burst when each call arrives strictly before
the previous call's `wait` window has elapsed. -/
def burstGaps (wait : Nat) : List Nat → Bool
  | [] => true
  | [_] => true
  | a :: b :: rest => decide (b < a + wait) && burstGaps wait (b :: rest)

lemma debounceRun_burst {α : Type} (wait : Nat) (p : Nat × α) (rest : List (Nat × α))
    (hb : burstGaps wait (p.1 :: rest.map Prod.fst) = true) :
    debounceRun wait rest (some (p.1 + wait, p.2)) =
      [((rest.getLastD p).1 + wait, (rest.getLastD p).2)] := by
  induction rest generalizing p with
  | nil => rfl
  | cons q rest ih =>
    obtain ⟨t, a⟩ := q
    simp only [List.map_cons, burstGaps, Bool.and_eq_true, decide_eq_true_eq] at hb
    have hfire : ¬ (p.1 + wait ≤ t) := by
      have := hb.1
      omega
    simp only [debounceRun, List.getLastD_cons]
    simp only [hfire, if_false, List.nil_append]
    exact ih (t, a) hb.2

/-- C5: the debounce wrapper is trailing-edge — over any burst of calls
(each arriving inside the previous call's `wait` window) `func` fires
exactly once, at `wait` after the last call of the burst, with the
arguments of that last call. -/
theorem debounce_trailing_edge {α : Type} (wait : Nat) (c : Nat × α) (rest : List (Nat × α))
    (hb : burstGaps wait ((c :: rest).map Prod.fst) = true) :
    debounceRun wait (c :: rest) none =
      [((rest.getLastD c).1 + wait, (rest.getLastD c).2)] := by
  obtain ⟨t, a⟩ := c
  simp only [debounceRun, List.nil_append]
  exact debounceRun_burst wait (t, a) rest (by simpa using hb)

/-- Witness for C5 at the spec's concrete trace: calls at t=0, 50, 100
with wait=80 fire exactly once, at t=180, with the t=100 call's
arguments. -/
theorem debounce_trailing_edge_witness :
    debounceRun 80 [(0, "zero"), (50, "fifty"), (100, "hundred")] none = [(180, "hundred")] := by
  have h := debounce_trailing_edge 80 (0, "zero") [(50, "fifty"), (100, "hundred")]
    (by decide)
  exact h.trans (by decide)

/-! ## Frame Scheduler (`scheduleStyleUpdate` in the utility module)

The module-level `scheduleStyleUpdate` closes over a `Map updates` from
element to pending style object and a `ticking` flag.  Elements are `Nat`
ids; a JavaScript `Map` is an insertion-ordered association list.  A
style object records a sequence of property assignments; reading a
property yields the last assignment, which is exactly the lookup
semantics of the object spread `{ ...updates.get(element), ...style }`.
`frameRequests` instruments the number of `requestAnimationFrame(runUpdates)`
calls issued, i.e. how many flush callbacks will fire. -/

/-- A style object as a sequence of property assignments (later
assignments shadow earlier ones). -/
abbrev StyleObj := List (String × String)

/-- First value for `p` in an assignment list. -/
def styleGetAux (p : String) : List (String × String) → Option String
  | [] => none
  | kv :: rest => if kv.1 == p then some kv.2 else styleGetAux p rest

/-- The value of property `p` in a style object: the last assignment to
`p` wins, as in a JavaScript object built by spreads. -/
def styleGet (s : StyleObj) (p : String) : Option String := styleGetAux p s.reverse

/-- The object spread `{ ...old, ...new_ }`: every assignment of `old`
followed by every assignment of `new_`. -/
def styleMerge (old new_ : StyleObj) : StyleObj := old ++ new_

/-- Left-biased choice on options. -/
def optOr : Option α → Option α → Option α
  | some v, _ => some v
  | none, b => b

/-- The value for property `p` set by the last fragment of `frags` that
assigns `p`, if any — the "last value set per property". -/
def lastSet (frags : List StyleObj) (p : String) : Option String :=
  match frags with
  | [] => none
  | f :: rest => optOr (lastSet rest p) (styleGet f p)

/-- `Map.prototype.get` on an insertion-ordered association list. -/
def mapGet : List (Nat × α) → Nat → Option α
  | [], _ => none
  | (k', v') :: rest, k => if k' = k then some v' else mapGet rest k

/-- `Map.prototype.set`: replace in place if the key exists, else append. -/
def mapSet : List (Nat × α) → Nat → α → List (Nat × α)
  | [], k, v => [(k, v)]
  | (k', v') :: rest, k, v =>
    if k' = k then (k, v) :: rest else (k', v') :: mapSet rest k v

/-- Closure state of the module-level `scheduleStyleUpdate`. -/
structure Scheduler where
  updates : List (Nat × StyleObj)
  ticking : Bool
  frameRequests : Nat
deriving DecidableEq, Repr

/-- The closure's initial state (also its state right after a flush). -/
def schedInit : Scheduler := ⟨[], false, 0⟩

/-- `scheduleStyleUpdate(element, style)`: merge `style` over the pending
entry for `element`; if no flush is scheduled, request one animation
frame and set `ticking`. -/
def scheduleStyleUpdate (s : Scheduler) (el : Nat) (style : StyleObj) : Scheduler :=
  let updates := mapSet s.updates el (styleMerge ((mapGet s.updates el).getD []) style)
  if s.ticking then { s with updates := updates }
  else { updates := updates, ticking := true, frameRequests := s.frameRequests + 1 }

/-- `runUpdates`: apply each pending element's merged style object in one
pass (the returned write list, one `Object.assign` per element), then
clear the pending map and the `ticking` flag. -/
def runUpdates (s : Scheduler) : List (Nat × StyleObj) × Scheduler :=
  (s.updates, { s with updates := [], ticking := false })

lemma styleGetAux_append (p : String) (l1 l2 : List (String × String)) :
    styleGetAux p (l1 ++ l2) = optOr (styleGetAux p l1) (styleGetAux p l2) := by
  induction l1 with
  | nil => simp [styleGetAux, optOr]
  | cons kv rest ih =>
    by_cases h : kv.1 == p
    · simp [styleGetAux, h, optOr]
    · simp [styleGetAux, h, ih]

lemma styleGet_merge (old new_ : StyleObj) (p : String) :
    styleGet (styleMerge old new_) p = optOr (styleGet new_ p) (styleGet old p) := by
  simp only [styleGet, styleMerge, List.reverse_append]
  exact styleGetAux_append p new_.reverse old.reverse

lemma optOr_assoc (a b c : Option α) : optOr (optOr a b) c = optOr a (optOr b c) := by
  cases a <;> cases b <;> rfl

lemma optOr_none_right (a : Option α) : optOr a none = a := by
  cases a <;> rfl

lemma styleGet_foldl_merge (frags : List StyleObj) (init : StyleObj) (p : String) :
    styleGet (frags.foldl styleMerge init) p = optOr (lastSet frags p) (styleGet init p) := by
  induction frags generalizing init with
  | nil => simp [lastSet, optOr]
  | cons f rest ih =>
    simp only [List.foldl_cons, lastSet, ih, styleGet_merge, optOr_assoc]

lemma scheduleStyleUpdate_single (el : Nat) (fr : List StyleObj) (acc : StyleObj) (c : Nat) :
    fr.foldl (fun s f => scheduleStyleUpdate s el f) ⟨[(el, acc)], true, c⟩ =
      ⟨[(el, fr.foldl styleMerge acc)], true, c⟩ := by
  induction fr generalizing acc with
  | nil => rfl
  | cons f rest ih =>
    simp only [List.foldl_cons]
    have hstep : scheduleStyleUpdate ⟨[(el, acc)], true, c⟩ el f =
        ⟨[(el, styleMerge acc f)], true, c⟩ := by
      simp [scheduleStyleUpdate, mapGet, mapSet]
    rw [hstep, ih]

/-- C1: frame coalescing.  Scheduling N ≥ 1 style fragments for the same
element from a clean frame produces, at the flush: exactly one DOM write,
for that element, whose style object is the merge of all N fragments;
exactly one flush callback was requested; and for every property the
merged object holds the last value set for it across the fragments. -/
theorem frame_coalescing (el : Nat) (first : StyleObj) (rest : List StyleObj) :
    ((runUpdates ((first :: rest).foldl (fun s f => scheduleStyleUpdate s el f) schedInit)).1 =
        [(el, (first :: rest).foldl styleMerge [])])
    ∧ ((first :: rest).foldl (fun s f => scheduleStyleUpdate s el f) schedInit).frameRequests = 1
    ∧ ∀ p, styleGet ((first :: rest).foldl styleMerge []) p = lastSet (first :: rest) p := by
  have hfirst : scheduleStyleUpdate schedInit el first = ⟨[(el, first)], true, 1⟩ := by
    simp [scheduleStyleUpdate, schedInit, mapGet, mapSet, styleMerge]
  have hfold : (first :: rest).foldl (fun s f => scheduleStyleUpdate s el f) schedInit =
      ⟨[(el, rest.foldl styleMerge first)], true, 1⟩ := by
    simp only [List.foldl_cons, hfirst]
    exact scheduleStyleUpdate_single el rest first 1
  refine ⟨?_, ?_, ?_⟩
  · rw [hfold]
    simp only [List.foldl_cons, runUpdates]
    rfl
  · rw [hfold]
  · intro p
    rw [styleGet_foldl_merge]
    simp [styleGet, styleGetAux, optOr_none_right]

/-! ## Geometry cache (`ScrollHandler.getElementRect` / `clearRectCache`)

`rectCache` maps an element to `{ rect, timestamp }`; an entry is served
while `now - timestamp < cacheTimeout` (16ms).  The platform geometry
query `getBoundingClientRect` is an oracle `geo : time → element → rect`
(rect values are abstract `Nat` codes), and the third component of the
result records whether a fresh geometry query was performed. -/

/-- A cached bounding-rect entry: the rect and the time it was stored. -/
structure RectCacheEntry where
  rect : Nat
  timestamp : Nat
deriving DecidableEq, Repr

/-- The `ScrollHandler` fields relevant to the geometry cache. -/
structure RectSys where
  rectCache : List (Nat × RectCacheEntry)
  cacheTimeout : Nat
deriving DecidableEq, Repr

/-- `getElementRect(element)` at time `now`: serve the cached rect while
the entry is younger than `cacheTimeout`, otherwise query the platform,
store the result with the current timestamp, and return it.  The boolean
reports whether the platform query ran. -/
def getElementRect (geo : Nat → Nat → Nat) (s : RectSys) (now el : Nat) :
    Nat × RectSys × Bool :=
  match mapGet s.rectCache el with
  | some cd =>
    if now - cd.timestamp < s.cacheTimeout then (cd.rect, s, false)
    else
      let r := geo now el
      (r, { s with rectCache := mapSet s.rectCache el ⟨r, now⟩ }, true)
  | none =>
    let r := geo now el
    (r, { s with rectCache := mapSet s.rectCache el ⟨r, now⟩ }, true)

/-- `clearRectCache()` (called on resize): drop every entry. -/
def clearRectCache (s : RectSys) : RectSys := { s with rectCache := [] }

lemma mapGet_mapSet_self (m : List (Nat × α)) (k : Nat) (v : α) :
    mapGet (mapSet m k v) k = some v := by
  induction m with
  | nil => simp [mapGet, mapSet]
  | cons kv rest ih =>
    by_cases h : kv.1 = k
    · simp [mapGet, mapSet, h]
    · simp [mapGet, mapSet, h, ih]

/-- C9: geometry-cache behaviour.  From a state with no entry for `el`:
the first fetch queries the platform and stores the rect with the
current timestamp; a second fetch inside the cache window returns the
identical cached rect with no fresh query and no state change; a fetch
after the window has elapsed queries afresh and restores with the new
timestamp; and a fetch after `clearRectCache` (resize) always queries
afresh and stores with the current timestamp. -/
theorem rect_cache_window (geo : Nat → Nat → Nat) (s : RectSys) (el t1 t2 t3 : Nat)
    (hnone : mapGet s.rectCache el = none)
    (hfresh : t2 - t1 < s.cacheTimeout)
    (hstale : ¬ t3 - t1 < s.cacheTimeout) :
    getElementRect geo s t1 el =
      (geo t1 el, { s with rectCache := mapSet s.rectCache el ⟨geo t1 el, t1⟩ }, true)
    ∧ getElementRect geo (getElementRect geo s t1 el).2.1 t2 el =
      (geo t1 el, (getElementRect geo s t1 el).2.1, false)
    ∧ getElementRect geo (getElementRect geo s t1 el).2.1 t3 el =
      (geo t3 el,
        { s with rectCache := mapSet (mapSet s.rectCache el ⟨geo t1 el, t1⟩) el ⟨geo t3 el, t3⟩ },
        true)
    ∧ ∀ (s' : RectSys) (t : Nat),
        getElementRect geo (clearRectCache s') t el =
          (geo t el, { s' with rectCache := [(el, ⟨geo t el, t⟩)] }, true) := by
  have h1 : getElementRect geo s t1 el =
      (geo t1 el, { s with rectCache := mapSet s.rectCache el ⟨geo t1 el, t1⟩ }, true) := by
    simp [getElementRect, hnone]
  refine ⟨h1, ?_, ?_, ?_⟩
  · rw [h1]
    simp [getElementRect, mapGet_mapSet_self, hfresh]
  · rw [h1]
    simp [getElementRect, mapGet_mapSet_self, hstale]
  · intro s' t
    simp [getElementRect, clearRectCache, mapGet, mapSet]

/-- Witness for C9: element 5, geometry oracle `geo t el = 100 * t + el`,
cache window 16ms, fetches at t=3 (fresh), t=10 (cached), t=40 (expired),
and after an invalidate at t=50. -/
theorem rect_cache_window_witness :
    getElementRect (fun t el => 100 * t + el) ⟨[], 16⟩ 3 5 =
      (305, ⟨[(5, ⟨305, 3⟩)], 16⟩, true)
    ∧ getElementRect (fun t el => 100 * t + el) ⟨[(5, ⟨305, 3⟩)], 16⟩ 10 5 =
      (305, ⟨[(5, ⟨305, 3⟩)], 16⟩, false)
    ∧ getElementRect (fun t el => 100 * t + el) ⟨[(5, ⟨305, 3⟩)], 16⟩ 40 5 =
      (4005, ⟨[(5, ⟨4005, 40⟩)], 16⟩, true)
    ∧ getElementRect (fun t el => 100 * t + el) (clearRectCache ⟨[(5, ⟨4005, 40⟩)], 16⟩) 50 5 =
      (5005, ⟨[(5, ⟨5005, 50⟩)], 16⟩, true) := by
  have h := rect_cache_window (fun t el => 100 * t + el) ⟨[], 16⟩ 5 3 10 40
    (by decide) (by decide) (by decide)
  refine ⟨h.1.trans (by decide), ?_, ?_, ?_⟩
  · have h2 := h.2.1
    rw [h.1] at h2
    exact h2.trans (by decide)
  · have h3 := h.2.2.1
    rw [h.1] at h3
    exact h3.trans (by decide)
  · exact (h.2.2.2 ⟨[(5, ⟨4005, 40⟩)], 16⟩ 50).trans (by decide)

/-! ## Scroll progress (`ScrollHandler.updateScrollProgress`)

On each served frame the handler computes
`scrolled = (window.scrollY / (documentHeight - windowHeight)) * 100` and
schedules `transform: scaleX(${scrolled / 100})` for the progress bar.
Arithmetic is over `ℚ`.  Note the source applies no clamping. -/

/-- The `scaleX` factor scheduled by `updateScrollProgress`. -/
def updateScrollProgressScaleX (scrollY documentHeight windowHeight : ℚ) : ℚ :=
  (scrollY / (documentHeight - windowHeight)) * 100 / 100

/-- C3 counterexample: the scheduled `scaleX` is not clamped to `[0, 1]`.
With scroll offset 200 on a page whose document height exceeds the
viewport height by only 100 (documentHeight = 1100, windowHeight = 1000),
the scheduled factor is 2. -/
theorem scroll_progress_unclamped :
    updateScrollProgressScaleX 200 1100 1000 = 2
    ∧ ¬ (0 ≤ updateScrollProgressScaleX 200 1100 1000
          ∧ updateScrollProgressScaleX 200 1100 1000 ≤ 1) := by
  constructor
  · norm_num [updateScrollProgressScaleX]
  · norm_num [updateScrollProgressScaleX]

/-- C3 (amended): the scheduled `scaleX` equals
`scrollY / (documentHeight - windowHeight)` with no clamping applied; it
lies in `[0, 1]` whenever the offset is in the normal browser range
`0 ≤ scrollY ≤ documentHeight - windowHeight` (with the document taller
than the viewport), and only the normal range guarantees that. -/
theorem scroll_progress_range (scrollY documentHeight windowHeight : ℚ)
    (h0 : 0 ≤ scrollY) (hdw : windowHeight < documentHeight)
    (hle : scrollY ≤ documentHeight - windowHeight) :
    updateScrollProgressScaleX scrollY documentHeight windowHeight =
      scrollY / (documentHeight - windowHeight)
    ∧ 0 ≤ updateScrollProgressScaleX scrollY documentHeight windowHeight
    ∧ updateScrollProgressScaleX scrollY documentHeight windowHeight ≤ 1 := by
  have hpos : 0 < documentHeight - windowHeight := by linarith
  have heq : updateScrollProgressScaleX scrollY documentHeight windowHeight =
      scrollY / (documentHeight - windowHeight) := by
    unfold updateScrollProgressScaleX
    field_simp
    ring
  refine ⟨heq, ?_, ?_⟩
  · rw [heq]
    positivity
  · rw [heq]
    rw [div_le_one hpos]
    exact hle

/-- Witness for C3's amended theorem: scrollY = 50 on a page with
documentHeight = 1100, windowHeight = 1000 gives scaleX = 1/2 ∈ [0, 1]. -/
theorem scroll_progress_range_witness :
    updateScrollProgressScaleX 50 1100 1000 = 50 / (1100 - 1000)
    ∧ 0 ≤ updateScrollProgressScaleX 50 1100 1000
    ∧ updateScrollProgressScaleX 50 1100 1000 ≤ 1 :=
  scroll_progress_range 50 1100 1000 (by norm_num) (by norm_num) (by norm_num)

/-! ## ScrollHandler destroy vs pending animation frames (C2)

`requestAnimationFrame` returns a numeric handle and
`cancelAnimationFrame(handle)` removes that request.  The browser's
frame queue is modelled explicitly: `nextId` is the next handle to hand
out and `pending` the outstanding requests with their callbacks.

`ScrollHandler.scheduleStyleUpdate` discards the handle returned by
`requestAnimationFrame(this.applyStyles)` and records only the boolean
`styleUpdateScheduled`; likewise `onScroll` records only `ticking`.
`destroy()` then calls `cancelAnimationFrame(this.styleUpdateScheduled)`
and `cancelAnimationFrame(this.ticking)` — booleans, which the Web API
coerces to the number 1 — and sets `pendingStyles` (and the other
references) to `null`.  `applyStyles` dereferences `this.pendingStyles`,
which throws once it is `null`. -/

/-- Callbacks the ScrollHandler hands to `requestAnimationFrame`. -/
inductive RafCb
  | applyStyles
  | scrollTick
deriving DecidableEq, Repr

/-- The browser's animation-frame queue. -/
structure RafSys where
  nextId : Nat
  pending : List (Nat × RafCb)
deriving DecidableEq, Repr

/-- `requestAnimationFrame(cb)`: allocate a handle, enqueue, return both. -/
def requestAnimationFrame (r : RafSys) (cb : RafCb) : Nat × RafSys :=
  (r.nextId, ⟨r.nextId + 1, r.pending ++ [(r.nextId, cb)]⟩)

/-- `cancelAnimationFrame(handle)`: remove the request with that handle. -/
def cancelAnimationFrame (r : RafSys) (handle : Nat) : RafSys :=
  ⟨r.nextId, r.pending.filter (fun p => p.1 != handle)⟩

/-- JavaScript `ToNumber` on a boolean, as applied by
`cancelAnimationFrame` to a boolean argument. -/
def boolToNumber (b : Bool) : Nat := if b then 1 else 0

/-- The `ScrollHandler` fields exercised by the destroy/flush path;
`pendingStyles = none` models the `null` written by `destroy()`. -/
structure SH where
  pendingStyles : Option (List (Nat × StyleObj))
  styleUpdateScheduled : Bool
  ticking : Bool
deriving DecidableEq, Repr

/-- A freshly constructed handler: empty pending-style map, no flush
scheduled, no scroll tick in flight. -/
def shInit : SH := ⟨some [], false, false⟩

/-- `ScrollHandler.scheduleStyleUpdate(element, styles)`: merge into
`pendingStyles` and, if no flush is scheduled, request an animation
frame for `applyStyles`, discarding the returned handle (only the
boolean `styleUpdateScheduled` is stored, exactly as in the source). -/
def shScheduleStyleUpdate (sh : SH) (r : RafSys) (el : Nat) (styles : StyleObj) :
    Except String (SH × RafSys) :=
  match sh.pendingStyles with
  | none => .error "TypeError: this.pendingStyles is null"
  | some m =>
    let m' := mapSet m el (styleMerge ((mapGet m el).getD []) styles)
    if sh.styleUpdateScheduled then .ok ({ sh with pendingStyles := some m' }, r)
    else
      .ok ({ sh with pendingStyles := some m', styleUpdateScheduled := true },
        (requestAnimationFrame r .applyStyles).2)

/-- `ScrollHandler.applyStyles`: apply and clear the pending map — or
throw, when `destroy()` has already nulled `pendingStyles`. -/
def shApplyStyles (sh : SH) : Except String (List (Nat × StyleObj) × SH) :=
  match sh.pendingStyles with
  | none => .error "TypeError: this.pendingStyles is null"
  | some m => .ok (m, { sh with pendingStyles := some [], styleUpdateScheduled := false })

/-- `ScrollHandler.destroy()`, restricted to its frame-cancellation and
state-release effects: `cancelAnimationFrame(this.styleUpdateScheduled)`
and `cancelAnimationFrame(this.ticking)` pass the boolean flags (coerced
to the number 1) because the handles returned by
`requestAnimationFrame` were never stored; then the pending-style map is
released (`null`). -/
def shDestroy (sh : SH) (r : RafSys) : SH × RafSys :=
  let r1 := if sh.styleUpdateScheduled then
      cancelAnimationFrame r (boolToNumber sh.styleUpdateScheduled) else r
  let r2 := if sh.ticking then cancelAnimationFrame r1 (boolToNumber sh.ticking) else r1
  ({ sh with pendingStyles := none }, r2)

/-- C2 (code bug): a style flush requested before `destroy()` survives
it.  With the frame queue at handle 2 (any page that has already used
one animation frame), `scheduleStyleUpdate` enqueues `applyStyles` under
handle 2; `destroy()` cancels handle 1 — the boolean flag coerced — so
the request is still pending after `destroy()`, `pendingStyles` is
already `null`, and when the frame fires `applyStyles` throws on the
released state.  This contradicts the claimed invariant that no callback
scheduled before `destroy()` runs after it. -/
theorem destroy_leaves_flush_pending :
    shScheduleStyleUpdate shInit ⟨2, []⟩ 7 [("transform", "scaleX(0.5)")] =
      .ok (⟨some [(7, [("transform", "scaleX(0.5)")])], true, false⟩,
        ⟨3, [(2, .applyStyles)]⟩)
    ∧ (shDestroy ⟨some [(7, [("transform", "scaleX(0.5)")])], true, false⟩
        ⟨3, [(2, .applyStyles)]⟩).2.pending = [(2, .applyStyles)]
    ∧ (shDestroy ⟨some [(7, [("transform", "scaleX(0.5)")])], true, false⟩
        ⟨3, [(2, .applyStyles)]⟩).1.pendingStyles = none
    ∧ shApplyStyles (shDestroy ⟨some [(7, [("transform", "scaleX(0.5)")])], true, false⟩
        ⟨3, [(2, .applyStyles)]⟩).1 = .error "TypeError: this.pendingStyles is null" := by
  refine ⟨rfl, by decide, by decide, rfl⟩

/-! ## Terminal history navigation (`Terminal.handleKeydown`)

The keydown handler manipulates three pieces of instance state:
`commandHistory` (most-recent-first), `historyIndex` (-1 = not
browsing), and the input field's value.  Typing is modelled as a
`setInput` event; Enter performs the handler's push-and-reset followed
by `executeCommand`'s clearing of the input field. -/

/-- The Terminal state touched by history navigation. -/
structure TermState where
  commandHistory : List String
  historyIndex : Int
  inputValue : String
deriving DecidableEq, Repr

/-- The terminal's initial navigation state. -/
def termInit : TermState := ⟨[], -1, ""⟩

/-- Input events relevant to history navigation: the three handled keys
plus ordinary typing into the field. -/
inductive TermEvent
  | arrowUp
  | arrowDown
  | enter
  | setInput (s : String)
deriving DecidableEq, Repr

/-- `Terminal.handleKeydown`: Enter pushes the trimmed non-empty line to
the front of the history and resets the cursor to -1 (then
`executeCommand` clears the field); ArrowUp moves the cursor up only
while below `length - 1` and shows the selected entry; ArrowDown moves
down only while above -1, showing the empty string on reaching -1. -/
def handleKeydown (s : TermState) (e : TermEvent) : TermState :=
  match e with
  | .enter =>
    let command := jsTrim s.inputValue
    let s' := if command = "" then s
      else { s with commandHistory := command :: s.commandHistory, historyIndex := -1 }
    { s' with inputValue := "" }
  | .arrowUp =>
    if s.historyIndex < (s.commandHistory.length : Int) - 1 then
      let i := s.historyIndex + 1
      { s with historyIndex := i, inputValue := s.commandHistory.getD i.toNat "" }
    else s
  | .arrowDown =>
    if s.historyIndex > -1 then
      let i := s.historyIndex - 1
      let v := if i = -1 then "" else s.commandHistory.getD i.toNat ""
      { s with historyIndex := i, inputValue := v }
    else s
  | .setInput str => { s with inputValue := str }

/-- Run the keydown handler over a whole event sequence from the initial
state. -/
def runTerminal (evs : List TermEvent) : TermState :=
  evs.foldl handleKeydown termInit

/-- The history-cursor invariant: the cursor stays in
`[-1, historyLength - 1]`. -/
def cursorInv (s : TermState) : Prop :=
  -1 ≤ s.historyIndex ∧ s.historyIndex ≤ (s.commandHistory.length : Int) - 1

lemma cursorInv_step (s : TermState) (e : TermEvent) (h : cursorInv s) :
    cursorInv (handleKeydown s e) := by
  obtain ⟨h1, h2⟩ := h
  cases e with
  | enter =>
    simp only [handleKeydown]
    by_cases hc : jsTrim s.inputValue = ""
    · rw [if_pos hc]
      exact ⟨h1, h2⟩
    · rw [if_neg hc]
      refine ⟨?_, ?_⟩
      · show (-1 : Int) ≤ -1
        omega
      · show (-1 : Int) ≤ ((jsTrim s.inputValue :: s.commandHistory).length : Int) - 1
        simp only [List.length_cons]
        push_cast
        omega
  | arrowUp =>
    simp only [handleKeydown]
    by_cases hlt : s.historyIndex < (s.commandHistory.length : Int) - 1
    · rw [if_pos hlt]
      refine ⟨?_, ?_⟩
      · show -1 ≤ s.historyIndex + 1
        omega
      · show s.historyIndex + 1 ≤ (s.commandHistory.length : Int) - 1
        omega
    · rw [if_neg hlt]
      exact ⟨h1, h2⟩
  | arrowDown =>
    simp only [handleKeydown]
    by_cases hgt : s.historyIndex > -1
    · rw [if_pos hgt]
      refine ⟨?_, ?_⟩
      · show -1 ≤ s.historyIndex - 1
        omega
      · show s.historyIndex - 1 ≤ (s.commandHistory.length : Int) - 1
        omega
    · rw [if_neg hgt]
      exact ⟨h1, h2⟩
  | setInput str => exact ⟨h1, h2⟩

lemma cursorInv_runAux (evs : List TermEvent) (s : TermState) (h : cursorInv s) :
    cursorInv (evs.foldl handleKeydown s) := by
  induction evs generalizing s with
  | nil => exact h
  | cons e evs ih => exact ih (handleKeydown s e) (cursorInv_step s e h)

/-- C6: history-cursor bounds.  For every event sequence the cursor stays
in `[-1, historyLength - 1]` (repeated ArrowUp never passes
`length - 1`, repeated ArrowDown never passes -1); whenever an ArrowDown
actually moves the cursor to -1 the input field shows the empty string;
and submitting a line that trims to a non-empty command pushes it to the
front of the history, resets the cursor to -1 and clears the input. -/
theorem history_cursor_bounds :
    (∀ evs : List TermEvent, cursorInv (runTerminal evs))
    ∧ (∀ s : TermState, s.historyIndex > -1 →
        (handleKeydown s .arrowDown).historyIndex = -1 →
        (handleKeydown s .arrowDown).inputValue = "")
    ∧ (∀ s : TermState, jsTrim s.inputValue ≠ "" →
        handleKeydown s .enter =
          ⟨jsTrim s.inputValue :: s.commandHistory, -1, ""⟩) := by
  refine ⟨?_, ?_, ?_⟩
  · intro evs
    exact cursorInv_runAux evs termInit ⟨by decide, by decide⟩
  · intro s hgt hidx
    simp only [handleKeydown, if_pos hgt] at hidx ⊢
    rw [if_pos hidx]
  · intro s hne
    simp only [handleKeydown, if_neg hne]

/-- Witness for C6: after submitting "ls" and "pwd", three ArrowUps and
three ArrowDowns keep the cursor in bounds; an ArrowDown from cursor 0
lands at -1 and blanks the input; and submitting " clear " pushes the
trimmed "clear" to the front and resets the cursor. -/
theorem history_cursor_bounds_witness :
    cursorInv (runTerminal [.setInput "ls", .enter, .setInput "pwd", .enter,
      .arrowUp, .arrowUp, .arrowUp, .arrowDown, .arrowDown, .arrowDown])
    ∧ (handleKeydown ⟨["pwd", "ls"], 0, "pwd"⟩ .arrowDown).inputValue = ""
    ∧ handleKeydown ⟨["ls"], -1, " clear "⟩ .enter = ⟨["clear", "ls"], -1, ""⟩ := by
  refine ⟨history_cursor_bounds.1 _, ?_, ?_⟩
  · exact history_cursor_bounds.2.1 ⟨["pwd", "ls"], 0, "pwd"⟩ (by decide) (by decide)
  · exact (history_cursor_bounds.2.2 ⟨["ls"], -1, " clear "⟩ (by decide)).trans (by decide)

/-! ## Terminal singleton lifecycle (C7)

`Terminal` keeps a private static `#instance` and a private static
`#initializing` flag.  Instances are identified by the value of a
creation counter `nextId`; the constructor throws unless the flag is
set, and `getInstance` sets the flag, constructs, and clears it in a
`finally`.  `resetInstance` (run at `beforeunload`) clears the static
instance reference. -/

/-- The static state of the `Terminal` class: the optional live instance
(by id), the `#initializing` flag, and the id the next construction
would receive. -/
structure TermSys where
  inst : Option Nat
  constructing : Bool
  nextId : Nat
deriving DecidableEq, Repr

/-- The class's static state at page load. -/
def sysInit : TermSys := ⟨none, false, 0⟩

/-- `new Terminal()`: throws unless the static `#initializing` flag is
set by `getInstance`; otherwise produces a fresh instance id. -/
def constructTerminal (s : TermSys) : Except String (Nat × TermSys) :=
  if s.constructing = false then
    .error "Terminal must be initialized using Terminal.getInstance()"
  else .ok (s.nextId, { s with nextId := s.nextId + 1 })

/-- `Terminal.getInstance()`: return the existing instance, or set the
flag, construct, store the instance, and clear the flag (the `finally`
clears it on the error path as well). -/
def getInstance (s : TermSys) : Except String Nat × TermSys :=
  match s.inst with
  | some i => (.ok i, s)
  | none =>
    match constructTerminal { s with constructing := true } with
    | .ok (i, s') => (.ok i, { s' with inst := some i, constructing := false })
    | .error e => (.error e, { s with constructing := false })

/-- `Terminal.resetInstance()`: clear the static instance reference. -/
def resetInstance (s : TermSys) : TermSys := { s with inst := none }

/-- Instance ids handed out so far are below the creation counter. -/
def sysInv (s : TermSys) : Prop := ∀ i, s.inst = some i → i < s.nextId

lemma getInstance_some (s : TermSys) (k : Nat) (hs : s.inst = some k) :
    getInstance s = (.ok k, s) := by
  simp [getInstance, hs]

lemma getInstance_none (s : TermSys) (hs : s.inst = none) :
    getInstance s = (.ok s.nextId, ⟨some s.nextId, false, s.nextId + 1⟩) := by
  simp [getInstance, hs, constructTerminal]

/-- C7: singleton lifecycle.  Repeated `getInstance` calls before any
reset return the same instance (and leave the state unchanged); direct
construction outside the accessor's guarded path throws; and after
`resetInstance` the next `getInstance` returns a fresh instance distinct
from the previous one. -/
theorem singleton_lifecycle :
    (∀ (s : TermSys) (i : Nat) (s' : TermSys),
        getInstance s = (.ok i, s') → getInstance s' = (.ok i, s'))
    ∧ (∀ s : TermSys, s.constructing = false →
        constructTerminal s = .error "Terminal must be initialized using Terminal.getInstance()")
    ∧ (∀ (s : TermSys) (i : Nat) (s' : TermSys) (j : Nat) (s'' : TermSys), sysInv s →
        getInstance s = (.ok i, s') → getInstance (resetInstance s') = (.ok j, s'') → j ≠ i) := by
  refine ⟨?_, ?_, ?_⟩
  · intro s i s' h
    cases hs : s.inst with
    | some k =>
      rw [getInstance_some s k hs] at h
      injection h with ha hb
      injection ha with hk
      subst hb
      subst hk
      exact getInstance_some s k hs
    | none =>
      rw [getInstance_none s hs] at h
      injection h with ha hb
      injection ha with hk
      subst hb
      subst hk
      exact getInstance_some _ s.nextId rfl
  · intro s hs
    simp [constructTerminal, hs]
  · intro s i s' j s'' hinv h1 h2
    cases hs : s.inst with
    | some k =>
      rw [getInstance_some s k hs] at h1
      injection h1 with ha hb
      injection ha with hk
      subst hb
      subst hk
      rw [getInstance_none (resetInstance s) rfl] at h2
      injection h2 with hc hd
      injection hc with hj
      have := hinv k hs
      simp only [resetInstance] at hj
      omega
    | none =>
      rw [getInstance_none s hs] at h1
      injection h1 with ha hb
      injection ha with hk
      subst hb
      subst hk
      rw [getInstance_none (resetInstance ⟨some s.nextId, false, s.nextId + 1⟩) rfl] at h2
      injection h2 with hc hd
      injection hc with hj
      simp only [resetInstance] at hj
      omega

/-- Witness for C7 from the page-load state: a second `getInstance` call
returns the same instance 0 produced at page load; direct construction
at page load throws; and after a reset the next `getInstance` returns
instance 1 ≠ 0. -/
theorem singleton_lifecycle_witness :
    getInstance ⟨some 0, false, 1⟩ = (.ok 0, ⟨some 0, false, 1⟩)
    ∧ constructTerminal sysInit = .error "Terminal must be initialized using Terminal.getInstance()"
    ∧ (1 : Nat) ≠ 0 := by
  refine ⟨?_, ?_, ?_⟩
  · exact singleton_lifecycle.1 sysInit 0 ⟨some 0, false, 1⟩ rfl
  · exact singleton_lifecycle.2.1 sysInit rfl
  · exact singleton_lifecycle.2.2 sysInit 0 ⟨some 0, false, 1⟩ 1 ⟨some 1, false, 2⟩
      (fun i h => by cases h) rfl rfl

/-! ## Terminal command dispatch (C8, C10)

`executeCommand` trims the input field, echoes the submitted line into
the transcript via `addToHistory(input)`, splits on spaces into
`(command, ...args)`, looks up `command.toLowerCase()` in the fixed
registry built by the initializer, runs the handler on the remaining
tokens (original case), and on a miss appends an error line naming the
token plus a help hint.  A handler's observable effects are transcript
appends (`addToHistory(text, type)`), navigation, and clearing the
transcript; time- and location-dependent text is supplied by an
environment record. -/

/-- Observable effects of command execution. -/
inductive TermAction
  | append (text : String) (kind : String)
  | navigate (path : String)
  | clearLines
deriving DecidableEq, Repr

/-- Ambient browser values read by handlers: `new Date().toLocaleString()`
and `window.location.pathname`. -/
structure Env where
  localeString : String
  pathname : String
deriving DecidableEq, Repr

/-- The names of the fixed command registry built by the terminal's
initializer, in insertion order. -/
inductive CommandName
  | help | clear | about | projects | contact | ls | whoami | date | echo
  | skills | social | pwd | cat | cd
deriving DecidableEq, Repr

/-- The command registry: name → handler, built once, in source order. -/
def commands : List (String × CommandName) :=
  [("help", .help), ("clear", .clear), ("about", .about), ("projects", .projects),
   ("contact", .contact), ("ls", .ls), ("whoami", .whoami), ("date", .date),
   ("echo", .echo), ("skills", .skills), ("social", .social), ("pwd", .pwd),
   ("cat", .cat), ("cd", .cd)]

/-- `this.commands[name]`. -/
def lookupCommand (name : String) : Option CommandName :=
  (commands.find? (fun kv => kv.1 == name)).map (fun kv => kv.2)

/-- The `showHelp` text block. -/
def helpLines : List String :=
  ["Available commands:",
   "help     - Show this help message",
   "clear    - Clear terminal history",
   "about    - Go to About page",
   "projects - Go to Projects page",
   "contact  - Go to Contact page",
   "ls       - List all sections",
   "whoami   - Display user info",
   "date     - Show current date/time",
   "echo     - Echo back your text",
   "skills   - List my technical skills",
   "social   - Show social media links",
   "pwd      - Print working directory",
   "cat      - Read a file",
   "cd       - Change directory"]

/-- The `showSkills` text block. -/
def skillsLines : List String :=
  ["[SECURITY]",
   "  ├── Penetration Testing",
   "  ├── Network Security",
   "  ├── Active Directory",
   "  └── Cloud Security",
   "",
   "[DEVELOPMENT]",
   "  ├── Python",
   "  ├── PowerShell",
   "  ├── Bash",
   "  └── Web Development",
   "",
   "[CERTIFICATIONS]",
   "  ├── OSCP",
   "  └── OSEP (In Progress)"]

/-- The `showSocial` text block. -/
def socialLines : List String :=
  ["Social Links:",
   "  GitHub:   https://github.com/rileymxyz",
   "  LinkedIn: https://www.linkedin.com/in/riley-mcgowen",
   "  Twitter:  https://x.com/rileymxyz"]

/-- The `showWhoami` text block. -/
def whoamiLines : List String :=
  ["Riley McGowen",
   "IT Professional & Security Specialist",
   "Location: Seattle, WA",
   "Status: Available for Security Projects"]

/-- `catFile`'s fixed simulated file table. -/
def fileContents (filename : String) : Option (List String) :=
  if filename == "readme.md" then
    some ["# Riley McGowen",
      "IT Professional & Security Specialist",
      "",
      "Welcome to my portfolio website!",
      "Type \"help\" to see available commands."]
  else if filename == "skills.txt" then
    some ["Technical Skills:",
      "- Penetration Testing",
      "- Network Security",
      "- Python Development",
      "- Cloud Security"]
  else none

/-- `catFile(args)`. -/
def catFile (args : List String) : List TermAction :=
  match args with
  | [] => [.append "Usage: cat <filename>" "error"]
  | filename :: _ =>
    match fileContents filename with
    | some lines => lines.map (fun l => .append l "")
    | none => [.append ("File not found: " ++ filename) "error"]

/-- `changeDirectory(args)`. -/
def changeDirectory (args : List String) : List TermAction :=
  match args with
  | [] => [.append "Usage: cd <directory>" "error"]
  | dir :: _ =>
    if dir == "/" || dir == "~" then [.navigate "/"]
    else if dir == "about" then [.navigate "/about.html"]
    else if dir == "projects" then [.navigate "/projects.html"]
    else if dir == "contact" then [.navigate "/contact.html"]
    else [.append ("Directory not found: " ++ dir) "error"]

/-- Run a registry handler on the argument tokens. -/
def runCommand (env : Env) (c : CommandName) (args : List String) : List TermAction :=
  match c with
  | .help => helpLines.map (fun l => .append l "")
  | .clear => [.clearLines]
  | .about => [.navigate "/about.html"]
  | .projects => [.navigate "/projects.html"]
  | .contact => [.navigate "/contact.html"]
  | .ls => .append "Available sections:" "" ::
      ["about.html", "projects.html", "contact.html"].map (fun s => .append ("  " ++ s) "")
  | .whoami => whoamiLines.map (fun l => .append l "")
  | .date => [.append env.localeString ""]
  | .echo => if args.length > 0 then [.append (joinSp args) ""] else []
  | .skills => skillsLines.map (fun l => .append l "")
  | .social => socialLines.map (fun l => .append l "")
  | .pwd => [.append ("/home/riley/web-app" ++ env.pathname) ""]
  | .cat => catFile args
  | .cd => changeDirectory args

/-- `Terminal.executeCommand`: trim, bail on empty, echo the input line,
split on spaces, look up the lowercased first token, and either run the
handler on the remaining tokens or append the error and hint lines. -/
def executeCommand (env : Env) (inputValue : String) : List TermAction :=
  let input := jsTrim inputValue
  if input = "" then []
  else
    match splitSp input with
    | [] => []
    | command :: args =>
      TermAction.append input "" ::
      (match lookupCommand (toLowerCase command) with
       | some c => runCommand env c args
       | none =>
          [.append ("Command not found: " ++ command) "error",
           .append "Type \"help\" for available commands" ""])

/-- Outcome of `Terminal.handleTabCompletion`. -/
inductive TabResult
  | autofill (value : String)
  | suggestions (acts : List TermAction)
  | noop
deriving DecidableEq, Repr

/-- The registry names whose spelling starts with the lowercased first
token of the input. -/
def tabMatches (inputValue : String) : List String :=
  let input := jsTrim inputValue
  let firstTok := (splitSp input).headD ""
  (commands.map (fun kv => kv.1)).filter (fun cmd => jsStartsWith cmd (toLowerCase firstTok))

/-- `Terminal.handleTabCompletion`: a unique match autofills the input;
several matches list suggestions in the transcript; none is a no-op. -/
def handleTabCompletion (inputValue : String) : TabResult :=
  match tabMatches inputValue with
  | [m] => .autofill m
  | [] => .noop
  | ms => .suggestions
      (.append "Possible commands:" "" :: ms.map (fun m => .append ("  " ++ m) ""))

/-- C8 counterexample: on the unmatched token "nonexistent" the
transcript does not receive exactly the error line and the hint line —
`executeCommand` first echoes the submitted input itself, so three lines
are appended, not two. -/
theorem command_dispatch_counterexample :
    executeCommand ⟨"Mon Jan 01 2026", "/"⟩ "nonexistent" =
      [.append "nonexistent" "",
       .append "Command not found: nonexistent" "error",
       .append "Type \"help\" for available commands" ""]
    ∧ (executeCommand ⟨"Mon Jan 01 2026", "/"⟩ "nonexistent").length = 3
    ∧ executeCommand ⟨"Mon Jan 01 2026", "/"⟩ "nonexistent" ≠
      [.append "Command not found: nonexistent" "error",
       .append "Type \"help\" for available commands" ""] := by
  refine ⟨rfl, rfl, by decide⟩

lemma executeCommand_eq (env : Env) (inputValue command : String) (args : List String)
    (hne : jsTrim inputValue ≠ "")
    (hsplit : splitSp (jsTrim inputValue) = command :: args) :
    executeCommand env inputValue =
      TermAction.append (jsTrim inputValue) "" ::
      (match lookupCommand (toLowerCase command) with
       | some c => runCommand env c args
       | none =>
          [.append ("Command not found: " ++ command) "error",
           .append "Type \"help\" for available commands" ""]) := by
  simp only [executeCommand]
  rw [if_neg hne, hsplit]

lemma executeCommand_matched (env : Env) (inputValue command : String) (args : List String)
    (c : CommandName) (hne : jsTrim inputValue ≠ "")
    (hsplit : splitSp (jsTrim inputValue) = command :: args)
    (hc : lookupCommand (toLowerCase command) = some c) :
    executeCommand env inputValue =
      TermAction.append (jsTrim inputValue) "" :: runCommand env c args := by
  rw [executeCommand_eq env inputValue command args hne hsplit, hc]

lemma executeCommand_unmatched (env : Env) (inputValue command : String) (args : List String)
    (hne : jsTrim inputValue ≠ "")
    (hsplit : splitSp (jsTrim inputValue) = command :: args)
    (hc : lookupCommand (toLowerCase command) = none) :
    executeCommand env inputValue =
      [TermAction.append (jsTrim inputValue) "",
       TermAction.append ("Command not found: " ++ command) "error",
       TermAction.append "Type \"help\" for available commands" ""] := by
  rw [executeCommand_eq env inputValue command args hne hsplit, hc]

/-- C8 (amended): for every submitted line that trims to something
non-empty and splits into `command :: args`: when the lowercased first
token matches the registry, the matched handler runs on the remaining
tokens and its output lines follow the echoed input line in the
transcript; when it does not match, the appended lines are exactly the
echoed input line, an error line containing the unmatched token, and a
help hint line — no handler runs.  In particular "echo hello world"
appends a line equal to "hello world". -/
theorem command_dispatch_lines :
    (∀ (env : Env) (inputValue command : String) (args : List String) (c : CommandName),
        jsTrim inputValue ≠ "" →
        splitSp (jsTrim inputValue) = command :: args →
        lookupCommand (toLowerCase command) = some c →
        executeCommand env inputValue =
          TermAction.append (jsTrim inputValue) "" :: runCommand env c args)
    ∧ (∀ (env : Env) (inputValue command : String) (args : List String),
        jsTrim inputValue ≠ "" →
        splitSp (jsTrim inputValue) = command :: args →
        lookupCommand (toLowerCase command) = none →
        executeCommand env inputValue =
          [TermAction.append (jsTrim inputValue) "",
           TermAction.append ("Command not found: " ++ command) "error",
           TermAction.append "Type \"help\" for available commands" ""])
    ∧ (∀ env : Env, executeCommand env "echo hello world" =
        [TermAction.append "echo hello world" "", TermAction.append "hello world" ""]) := by
  refine ⟨?_, ?_, fun env => rfl⟩
  · intro env inputValue command args c hne hsplit hc
    exact executeCommand_matched env inputValue command args c hne hsplit hc
  · intro env inputValue command args hne hsplit hc
    exact executeCommand_unmatched env inputValue command args hne hsplit hc

/-- Witness for C8's amended theorem: the matched branch at
"echo hello world" (handler output "hello world" follows the echoed
line) and the unmatched branch at "nonexistent" (exactly the echoed
line, the error line naming the token, and the hint line). -/
theorem command_dispatch_lines_witness :
    executeCommand ⟨"Wed Feb 04 2026", "/index.html"⟩ "echo hello world" =
      [TermAction.append "echo hello world" "", TermAction.append "hello world" ""]
    ∧ executeCommand ⟨"Wed Feb 04 2026", "/index.html"⟩ "nonexistent" =
      [TermAction.append "nonexistent" "",
       TermAction.append "Command not found: nonexistent" "error",
       TermAction.append "Type \"help\" for available commands" ""] := by
  constructor
  · exact (command_dispatch_lines.1 ⟨"Wed Feb 04 2026", "/index.html"⟩ "echo hello world"
      "echo" ["hello", "world"] .echo (by decide) rfl rfl).trans (by decide)
  · exact (command_dispatch_lines.2.1 ⟨"Wed Feb 04 2026", "/index.html"⟩ "nonexistent"
      "nonexistent" [] (by decide) rfl rfl).trans (by decide)

/-- C10: case-insensitive dispatch.  Every registry key is its own
lowercasing (the registry is all-lowercase); for every submitted line
splitting into `command :: args`, the registry lookup is performed on
`toLowerCase command` and the matched handler receives `args` exactly as
split from the original line (original case); for every input and every
registry name, the name is a tab-completion match exactly when it starts
with the lowercased first token of the input; and concretely
"ECHO Hi there" dispatches to echo with original-case arguments, "H"
autofills to "help", and "C" lists the four registry names beginning
with "c". -/
theorem case_insensitive_dispatch :
    (∀ kv ∈ commands, toLowerCase kv.1 = kv.1)
    ∧ (∀ (env : Env) (inputValue command : String) (args : List String) (c : CommandName),
        jsTrim inputValue ≠ "" →
        splitSp (jsTrim inputValue) = command :: args →
        lookupCommand (toLowerCase command) = some c →
        executeCommand env inputValue =
          TermAction.append (jsTrim inputValue) "" :: runCommand env c args)
    ∧ (∀ inputValue name : String,
        name ∈ tabMatches inputValue ↔
          name ∈ commands.map (fun kv => kv.1) ∧
          jsStartsWith name (toLowerCase ((splitSp (jsTrim inputValue)).headD "")) = true)
    ∧ (∀ env : Env, executeCommand env "ECHO Hi there" =
        [TermAction.append "ECHO Hi there" "", TermAction.append "Hi there" ""])
    ∧ handleTabCompletion "H" = .autofill "help"
    ∧ handleTabCompletion "C" = .suggestions
        [TermAction.append "Possible commands:" "",
         TermAction.append "  clear" "", TermAction.append "  contact" "",
         TermAction.append "  cat" "", TermAction.append "  cd" ""] := by
  refine ⟨by decide, ?_, ?_, fun env => rfl, rfl, rfl⟩
  · intro env inputValue command args c hne hsplit hc
    exact executeCommand_matched env inputValue command args c hne hsplit hc
  · intro inputValue name
    simp [tabMatches, List.mem_filter]

/-- Witness for C10: the registry key "echo" is its own lowercasing; the
general dispatch conjunct at "ECHO Hi there" runs the echo handler on
the original-case arguments; and "help" is a tab match for the
upper-case partial "H". -/
theorem case_insensitive_dispatch_witness :
    toLowerCase "echo" = "echo"
    ∧ executeCommand ⟨"Wed Feb 04 2026", "/index.html"⟩ "ECHO Hi there" =
      [TermAction.append "ECHO Hi there" "", TermAction.append "Hi there" ""]
    ∧ "help" ∈ tabMatches "H" := by
  refine ⟨?_, ?_, ?_⟩
  · exact case_insensitive_dispatch.1 ("echo", .echo) (by decide)
  · exact (case_insensitive_dispatch.2.1 ⟨"Wed Feb 04 2026", "/index.html"⟩ "ECHO Hi there"
      "ECHO" ["Hi", "there"] .echo (by decide) rfl rfl).trans (by decide)
  · exact (case_insensitive_dispatch.2.2.1 "H" "help").mpr ⟨by decide, by decide⟩
